import Mathlib

/-!
# Verification of the lup-system sampling-and-normalization engine

Shallow embedding of the TypeScript sources of `node-lup-system`
(`src/cpu.ts`, `src/drive.ts`, `src/net.ts`, `src/memory.ts`, `src/gpu.ts`,
`src/docker.ts`) together with proofs about the embedded functions.

JavaScript numbers are modelled by `ℚ`.  Where the source can produce a
non-finite IEEE value (`NaN` or `±Infinity`, which only happens on division
by zero in this code base), the embedding uses `Option ℚ` with `none`
standing for the non-finite result; every other arithmetic operation in the
sources stays within the finite range modelled by `ℚ`.
-/

namespace LupSystem

/-- JavaScript division.  `none` models the non-finite IEEE result
(`NaN` for `0/0`, `±Infinity` otherwise) produced when the divisor is `0`. -/
def jsDiv (a b : ℚ) : Option ℚ :=
  if b = 0 then none else some (a / b)

/-- Models the JavaScript builtin `parseInt(s, 10)` (as used in the sources):
leading whitespace is skipped, an optional sign is read, then the longest
decimal-digit prefix; the result is `none` (standing for `NaN`) when no digit
is found. -/
def jsParseInt (s : String) : Option ℤ :=
  let chars := s.toList.dropWhile (fun c => c = ' ' ∨ c = '\t' ∨ c = '\n' ∨ c = '\r')
  let (neg, rest) :=
    match chars with
    | '-' :: t => (true, t)
    | '+' :: t => (false, t)
    | t => (false, t)
  let digits := rest.takeWhile Char.isDigit
  if digits.isEmpty then none
  else
    let n : ℕ := digits.foldl (fun acc c => acc * 10 + (c.toNat - '0'.toNat)) 0
    some (if neg then -(n : ℤ) else (n : ℤ))

/-- Models the JavaScript builtin `parseFloat` on the inputs occurring here:
leading whitespace skipped, optional sign, decimal digits with an optional
fractional part; `none` (standing for `NaN`) when no digit is found.
(Exponent notation never occurs in the tool outputs parsed by the sources
and is not modelled.) -/
def jsParseFloat (s : String) : Option ℚ :=
  let chars := s.toList.dropWhile (fun c => c = ' ' ∨ c = '\t' ∨ c = '\n' ∨ c = '\r')
  let (neg, rest) :=
    match chars with
    | '-' :: t => (true, t)
    | '+' :: t => (false, t)
    | t => (false, t)
  let intDigits := rest.takeWhile Char.isDigit
  let afterInt := rest.drop intDigits.length
  let fracDigits :=
    match afterInt with
    | '.' :: t => t.takeWhile Char.isDigit
    | _ => []
  if intDigits.isEmpty ∧ fracDigits.isEmpty then none
  else
    let ip : ℕ := intDigits.foldl (fun acc c => acc * 10 + (c.toNat - '0'.toNat)) 0
    let fp : ℕ := fracDigits.foldl (fun acc c => acc * 10 + (c.toNat - '0'.toNat)) 0
    let q : ℚ := (ip : ℚ) + (fp : ℚ) / ((10 : ℚ) ^ fracDigits.length)
    some (if neg then -q else q)

/-! ## CPU delta sampler (`src/cpu.ts`) -/

/-- One entry of `os.cpus()[i].times`: cumulative tick counters per core. -/
structure CpuTimes where
  user : ℚ
  nice : ℚ
  sys : ℚ
  irq : ℚ
  idle : ℚ
  deriving Repr, DecidableEq

/-- `user + nice + sys + irq`, the busy-tick counter of `computeCpuUtilization`. -/
def CpuTimes.busy (t : CpuTimes) : ℚ := t.user + t.nice + t.sys + t.irq

/-- `busy + idle`, the total-tick counter of `computeCpuUtilization`. -/
def CpuTimes.total (t : CpuTimes) : ℚ := t.busy + t.idle

/-- The `CPUUtilization` record of `cpu.ts`.  A core entry `none` models the
non-finite number (`NaN`/`±Infinity`) JavaScript stores when the per-core
divisor is zero. -/
structure CPUUtilization where
  overall : ℚ
  cores : List (Option ℚ)
  deriving Repr, DecidableEq

/-- The module-level mutable state of `cpu.ts`: `PREV_CPU_CORES`,
`CPU_UTILIZATION`, `CPU_COMPUTE_RUNNING` and `CPU_COMPUTE_TIMEOUT`
(the timeout is kept as a `Bool`: whether a timer is pending). -/
structure CpuState where
  prevCpuCores : List CpuTimes
  utilization : CPUUtilization
  running : Bool
  timeoutArmed : Bool
  deriving Repr, DecidableEq

/-- The initial module state of `cpu.ts` at process start. -/
def cpuInitialState : CpuState :=
  { prevCpuCores := []
    utilization := { overall := 0, cores := [] }
    running := false
    timeoutArmed := false }

/-- `computeCpuUtilization` from `cpu.ts`, as a state transformer taking the
fresh `os.cpus()` sample as input.

The source first resizes `CPU_UTILIZATION.cores` to
`min = Math.min(cpuCores.length, PREV_CPU_CORES.length)` (push `0` / slice)
and then assigns every index `i < min` inside the loop, so the resulting
array is exactly the per-index rates over the zipped snapshots; the overall
rate divides the summed deltas, guarded against a zero divisor. -/
def computeCpuUtilization (s : CpuState) (cpuCores : List CpuTimes) : CpuState :=
  let pairs := s.prevCpuCores.zip cpuCores
  let coreRates := pairs.map (fun pn => jsDiv (pn.2.busy - pn.1.busy) (pn.2.total - pn.1.total))
  let totalUsage := (pairs.map (fun pn => pn.2.busy - pn.1.busy)).sum
  let totalTotal := (pairs.map (fun pn => pn.2.total - pn.1.total)).sum
  { s with
    prevCpuCores := cpuCores
    utilization :=
      { overall := if totalTotal ≠ 0 then totalUsage / totalTotal else 0
        cores := coreRates } }

/-- `runCpuComputeInterval` from `cpu.ts`: sets `CPU_COMPUTE_RUNNING`, runs
one computation and arms the repeating timer. -/
def runCpuComputeInterval (s : CpuState) (cpuCores : List CpuTimes) : CpuState :=
  let s1 := computeCpuUtilization { s with running := true } cpuCores
  { s1 with timeoutArmed := true }

/-- `stopCpuUtilizationComputation` from `cpu.ts`: clears the pending timer
and the running flag (and nothing else). -/
def stopCpuUtilizationComputation (s : CpuState) : CpuState :=
  { s with timeoutArmed := false, running := false }

/-- `getCpuUtilization` from `cpu.ts` as a state transformer.  When the
computation is not running it performs the restart protocol: one immediate
computation (via `runCpuComputeInterval`) on the sample `c₁`, a 50 ms sleep,
and a second computation on the sample `c₂`; it returns `CPU_UTILIZATION`. -/
def getCpuUtilization (s : CpuState) (c₁ c₂ : List CpuTimes) :
    CpuState × CPUUtilization :=
  if s.running then (s, s.utilization)
  else
    let s1 := runCpuComputeInterval s c₁
    let s2 := computeCpuUtilization s1 c₂
    (s2, s2.utilization)

/-- The state of the restarting call between its first computation and the
50 ms warm-up sleep — the value a concurrent `getCpuUtilization` call reads
during the sleep (it sees `CPU_COMPUTE_RUNNING = true` and returns
`CPU_UTILIZATION` as computed by the first step). -/
def restartFirstCompute (s : CpuState) (c₁ : List CpuTimes) : CpuState :=
  runCpuComputeInterval s c₁

/-- `Modelled from the spec:` the restart protocol as §4.2 of the design
document describes it — a snapshot retained from before a stop "must be
treated as invalid on restart — re-arm with a fresh first snapshot", so the
first computation after a restart sees no previous snapshot. -/
def specFreshRestartFirstCompute (s : CpuState) (c₁ : List CpuTimes) : CpuState :=
  runCpuComputeInterval { s with prevCpuCores := [] } c₁

/-! ## Drives (`src/drive.ts`) -/

/-- The `DriveInfo` record of `drive.ts`.  All numeric fields are finite in
the source (`parseInt(...) || 0` never yields `NaN` and the utilization
division is guarded), so plain `ℚ` is used. -/
structure DriveInfo where
  filesystem : String
  mount : String
  type : String
  free : ℚ
  used : ℚ
  total : ℚ
  utilization : ℚ
  deriving Repr, DecidableEq

/-- `VIRTUAL_DRIVE_TYPES` from `drive.ts`. -/
def VIRTUAL_DRIVE_TYPES : List String := ["devtmpfs", "tmpfs", "overlay"]

/-- `parseInt(x, 10) || 0` as used throughout `drive.ts`: a failed parse
(`NaN`, which is falsy) becomes `0`; a parsed `0` is falsy too and stays `0`. -/
def jsParseIntOr0 (s : String) : ℤ :=
  (jsParseInt s).getD 0

/-- The record pushed for one data line of the linux/darwin branch of
`getDrives` (lines 53-63 of `drive.ts`), given the whitespace-separated
columns of the line.  `parts[2]` is the total, `parts[3]` the used and
`parts[4]` the free column of `df -PT --block-size=1`. -/
def mkLinuxDrive (parts : List String) : DriveInfo :=
  let used : ℚ := (jsParseIntOr0 (parts.getD 3 "") : ℚ)
  let total : ℚ := (jsParseIntOr0 (parts.getD 2 "") : ℚ)
  { filesystem := parts.getD 0 ""
    type := (parts.getD 1 "").toLower
    total := total
    used := used
    free := (jsParseIntOr0 (parts.getD 4 "") : ℚ)
    utilization := if total ≠ 0 then used / total else 0
    mount := if parts.getD 6 "" ≠ "" then parts.getD 6 "" else parts.getD 0 "" }

/-- One line of the linux/darwin branch of `getDrives`: trim, split on runs
of whitespace, skip when fewer than 5 columns or (unless `includeVirtual`)
when the type column is a known virtual filesystem type. -/
def getDrivesLinuxLine (includeVirtual : Bool) (line : String) : Option DriveInfo :=
  let parts := (line.trim.split Char.isWhitespace).filter (· ≠ "")
  if parts.length < 5 then none
  else
    let ty := (parts.getD 1 "").toLower
    if ¬ includeVirtual ∧ VIRTUAL_DRIVE_TYPES.contains ty then none
    else some (mkLinuxDrive parts)

/-- The linux/darwin branch of `getDrives`, fed with the already-captured
command output (the header line is skipped, blank lines are skipped). -/
def getDrivesLinux (includeVirtual : Bool) (output : String) : List DriveInfo :=
  ((output.splitOn "\n").drop 1).filterMap (fun line =>
    if line.trim = "" then none else getDrivesLinuxLine includeVirtual line)

/-- One entry of the powershell `ConvertTo-Json` output consumed by the
win32 branch of `getDrives` (fields `Caption`, `VolumeName`, `Size`,
`FreeSpace`, `FileSystem`, any of which may be absent/empty). -/
structure WinDisk where
  Caption : String
  VolumeName : String
  Size : String
  FreeSpace : String
  FileSystem : String
  deriving Repr, DecidableEq

/-- The record pushed for one JSON entry of the win32 branch of `getDrives`
(lines 73-85 of `drive.ts`): `used = total - free` and
`utilization = total !== 0 ? (total - free) / total : 0`. -/
def mkWinDrive (d : WinDisk) : DriveInfo :=
  let total : ℚ := (jsParseIntOr0 d.Size : ℚ)
  let free : ℚ := (jsParseIntOr0 d.FreeSpace : ℚ)
  { filesystem := d.Caption
    mount := if d.VolumeName ≠ "" then d.VolumeName else d.Caption
    type := (if d.FileSystem ≠ "" then d.FileSystem else "unknown").toLower
    total := total
    free := free
    used := total - free
    utilization := if total ≠ 0 then (total - free) / total else 0 }

/-- The win32 branch of `getDrives` (lines 68-87 of `drive.ts`), as a
function of the command-runner result and of the `JSON.parse` builtin
(passed as a parameter; the only fact about it used in any theorem below is
the ECMA-262 fact that parsing an input holding no JSON value, such as the
empty string, throws a `SyntaxError`).  A command failure is swallowed into
the empty string by `.catch(() => '')` — and the subsequent `JSON.parse`
call throws outside any handler, so its error is the branch's result. -/
def getDrivesWin32 (jsonParse : String → Except String (List WinDisk))
    (cmdResult : Except String String) : Except String (List DriveInfo) := do
  let output := match cmdResult with
    | .ok o => o
    | .error _ => ""
  let disks ← jsonParse output
  pure (disks.map mkWinDrive)

/-! ## Network sampler state (`src/net.ts`) -/

/-- One entry of `NET_LAST_STATS`. -/
structure NetStats where
  receivedBytes : ℚ
  transmittedBytes : ℚ
  deriving Repr, DecidableEq

/-- One entry of `NET_BYTES_PER_SECOND`. -/
structure NetRates where
  receive : ℚ
  transmit : ℚ
  deriving Repr, DecidableEq

/-- The module-level mutable state of `net.ts`: `NET_LAST_COMPUTE`,
`NET_LAST_STATS`, `NET_BYTES_PER_SECOND`, `NET_COMPUTE_RUNNING` and
`NET_COMPUTE_TIMEOUT` (kept as a `Bool`: whether a timer is pending).
The per-interface maps are modelled as association lists keyed by the
interface name. -/
structure NetState where
  lastCompute : ℚ
  lastStats : List (String × NetStats)
  bytesPerSecond : List (String × NetRates)
  running : Bool
  timeoutArmed : Bool
  deriving Repr, DecidableEq

/-- The initial module state of `net.ts` at process start. -/
def netInitialState : NetState :=
  { lastCompute := 0
    lastStats := []
    bytesPerSecond := []
    running := false
    timeoutArmed := false }

/-- `stopNetworkUtilizationComputation` from `net.ts`: clears the pending
timer and the running flag (and nothing else). -/
def stopNetworkUtilizationComputation (s : NetState) : NetState :=
  { s with timeoutArmed := false, running := false }

/-! ## GPUs (`src/gpu.ts`) -/

/-- The `GPUUtilization` record of `gpu.ts`. -/
structure GPUUtil where
  memory : Option ℚ := none
  memoryTemperature : Option ℚ := none
  processing : Option ℚ := none
  temperature : Option ℚ := none
  fanSpeed : Option ℚ := none
  powerDraw : Option ℚ := none
  deriving Repr, DecidableEq

/-- The fresh `{}` assigned by `if (!currGpu.utilization) currGpu.utilization = {}`. -/
def GPUUtil.empty : GPUUtil := {}

/-- The `GPU` record of `gpu.ts`.  Fields the runtime may leave unset on a
partially built record are `Option`-valued. -/
structure GPU where
  id : String
  name : String
  processor : Option String := none
  status : Option String := none
  driverDate : Option String := none
  driverVersion : Option String := none
  memory : Option ℤ := none
  index : Option ℤ := none
  displayAttached : Option Bool := none
  displayActive : Option Bool := none
  utilization : Option GPUUtil := none
  deriving Repr, DecidableEq

/-- One `nvidia-smi` CSV row after `lines[i].split(',').map(s => s.trim())`;
a column that is missing from the row destructures to `undefined`, which the
source only ever tests for truthiness, so it is modelled as `""`. -/
structure SmiRow where
  name : String := ""
  displayAttached : String := ""
  displayActive : String := ""
  fanSpeed : String := ""
  memoryTotal : String := ""
  utilizationGPU : String := ""
  utilizationMemory : String := ""
  temperatureGPU : String := ""
  temperatureMemory : String := ""
  powerDraw : String := ""
  deriving Repr, DecidableEq

/-- The strings recognized as "true" for the display flags in `gpu.ts`. -/
def smiYesValues : List String := ["yes", "enabled", "1"]

/-- `if (!currGpu.utilization) currGpu.utilization = {}; currGpu.utilization.X = v`
— update the (possibly still absent) utilization sub-record. -/
def setUtil (g : GPU) (f : GPUUtil → GPUUtil) : GPU :=
  { g with utilization := some (f (g.utilization.getD GPUUtil.empty)) }

/-- Line 165 of `gpu.ts`: `if (displayAttached) currGpu.displayAttached = ...`. -/
def applyDisplayAttached (r : SmiRow) (g : GPU) : GPU :=
  if r.displayAttached ≠ "" then
    { g with displayAttached := some (smiYesValues.contains r.displayAttached.toLower) }
  else g

/-- Line 166 of `gpu.ts`. -/
def applyDisplayActive (r : SmiRow) (g : GPU) : GPU :=
  if r.displayActive ≠ "" then
    { g with displayActive := some (smiYesValues.contains r.displayActive.toLower) }
  else g

/-- Lines 167-170 of `gpu.ts`: `fanSpeed && !NaN` guard, then
`utilization.fanSpeed = parseFloat(fanSpeed) / 100`. -/
def applyFanSpeed (r : SmiRow) (g : GPU) : GPU :=
  match if r.fanSpeed ≠ "" then jsParseFloat r.fanSpeed else none with
  | some v => setUtil g (fun u => { u with fanSpeed := some (v / 100) })
  | none => g

/-- Lines 171-172 of `gpu.ts`: `currGpu.memory = parseInt(memoryTotal, 10) *
1024 * 1024` (MiB to bytes). -/
def applyMemoryTotal (r : SmiRow) (g : GPU) : GPU :=
  match if r.memoryTotal ≠ "" then jsParseInt r.memoryTotal else none with
  | some m => { g with memory := some (m * 1024 * 1024) }
  | none => g

/-- Lines 173-176 of `gpu.ts`: `utilization.processing = parseFloat(...) / 100`. -/
def applyUtilizationGPU (r : SmiRow) (g : GPU) : GPU :=
  match if r.utilizationGPU ≠ "" then jsParseFloat r.utilizationGPU else none with
  | some v => setUtil g (fun u => { u with processing := some (v / 100) })
  | none => g

/-- Lines 177-180 of `gpu.ts`: `utilization.memory = parseFloat(...) / 100`. -/
def applyUtilizationMemory (r : SmiRow) (g : GPU) : GPU :=
  match if r.utilizationMemory ≠ "" then jsParseFloat r.utilizationMemory else none with
  | some v => setUtil g (fun u => { u with memory := some (v / 100) })
  | none => g

/-- Lines 181-184 of `gpu.ts`. -/
def applyTemperatureGPU (r : SmiRow) (g : GPU) : GPU :=
  match if r.temperatureGPU ≠ "" then jsParseFloat r.temperatureGPU else none with
  | some v => setUtil g (fun u => { u with temperature := some v })
  | none => g

/-- Lines 185-188 of `gpu.ts`. -/
def applyTemperatureMemory (r : SmiRow) (g : GPU) : GPU :=
  match if r.temperatureMemory ≠ "" then jsParseFloat r.temperatureMemory else none with
  | some v => setUtil g (fun u => { u with memoryTemperature := some v })
  | none => g

/-- Lines 189-192 of `gpu.ts`. -/
def applyPowerDraw (r : SmiRow) (g : GPU) : GPU :=
  match if r.powerDraw ≠ "" then jsParseFloat r.powerDraw else none with
  | some v => setUtil g (fun u => { u with powerDraw := some v })
  | none => g

/-- Lines 165-192 of `gpu.ts`: apply the fields of one `nvidia-smi` row to a
GPU record, in source order.  Each guard is
`field && !Number.isNaN(parse(field))`: the field must be a nonempty string
that parses; percentage-like values are divided by 100 and the memory size
is converted from MiB to bytes. -/
def rowApply (g : GPU) (r : SmiRow) : GPU :=
  applyPowerDraw r (applyTemperatureMemory r (applyTemperatureGPU r
    (applyUtilizationMemory r (applyUtilizationGPU r (applyMemoryTotal r
      (applyFanSpeed r (applyDisplayActive r (applyDisplayAttached r g))))))))

/-- The record created for a row with no matching base record:
`currGpu = { id: name, name } as GPU` (line 161 of `gpu.ts`). -/
def blankGpu (nm : String) : GPU := { id := nm, name := nm }

/-- The inner `for (let g = 0; ...)` search of `gpu.ts` (lines 151-159):
scan indices in ascending order, skip indices already in `updatedIndexes`,
and return the first record whose `name` equals the row's name. -/
def findUnmergedAux (updated : List ℕ) (nm : String) : ℕ → List GPU → Option (ℕ × GPU)
  | _, [] => none
  | i, gp :: rest =>
    if ¬ updated.contains i ∧ gp.name = nm then some (i, gp)
    else findUnmergedAux updated nm (i + 1) rest

/-- The search of lines 151-159 of `gpu.ts` over the whole `gpus` array. -/
def findUnmergedIdx (gpus : List GPU) (updated : List ℕ) (nm : String) : Option (ℕ × GPU) :=
  findUnmergedAux updated nm 0 gpus

/-- The body of the `nvidia-smi` row loop of `gpu.ts` (lines 136-194) for a
single row: merge into the first unmerged record with matching name (and
mark its index), else append a new record keyed by the row's name (its index
marked immediately, so it is never a later merge target). -/
def applySmiRow : List GPU × List ℕ → SmiRow → List GPU × List ℕ
  | (gpus, updated), r =>
    match findUnmergedIdx gpus updated r.name with
    | some (g, gp) => (gpus.set g (rowApply gp r), g :: updated)
    | none => (gpus ++ [rowApply (blankGpu r.name) r], gpus.length :: updated)

/-- The whole `nvidia-smi` pass of `getGPUs` (lines 129-195 of `gpu.ts`):
fold the row loop over the base records built by the platform branch,
starting from an empty `updatedIndexes` set. -/
def getGPUsSmiPass (gpus : List GPU) (rows : List SmiRow) : List GPU :=
  (rows.foldl applySmiRow (gpus, [])).1

/-- Claim-side view of a base (inventory-derived) record carrying its
"already merged" mark. -/
structure MarkedGPU where
  gpu : GPU
  merged : Bool
  deriving Repr, DecidableEq

/-- `Modelled from the spec:` merge one vendor-diagnostic row into the first
not-yet-merged inventory record with exactly matching name, marking it
merged; `none` when no such record exists. -/
def specMergeInto : List MarkedGPU → SmiRow → Option (List MarkedGPU)
  | [], _ => none
  | m :: rest, r =>
    if ¬ m.merged ∧ m.gpu.name = r.name then some (⟨rowApply m.gpu r, true⟩ :: rest)
    else (specMergeInto rest r).map (m :: ·)

/-- `Modelled from the spec:` one step of the two-pass merge as the design
document words it — a row merges into the first unmerged inventory record of
matching name (each inventory record merged into at most once), and a row
with no match creates a new record keyed by its name, appended after all
others. -/
def specMergeStep (st : List MarkedGPU × List GPU) (r : SmiRow) :
    List MarkedGPU × List GPU :=
  match specMergeInto st.1 r with
  | some base => (base, st.2)
  | none => (st.1, st.2 ++ [rowApply (blankGpu r.name) r])

/-- `Modelled from the spec:` the full two-pass merge as the design document
words it — inventory records in their original order (merged in place),
followed by the records created for unmatched vendor-diagnostic rows. -/
def specMerge (gpus : List GPU) (rows : List SmiRow) : List GPU :=
  let st := rows.foldl specMergeStep (gpus.map (⟨·, false⟩), [])
  st.1.map (·.gpu) ++ st.2

/-- The six inventory-only fields of a GPU record, which a vendor-diagnostic
row never writes. -/
def invFields (g : GPU) :
    String × String × Option String × Option String × Option String × Option String :=
  (g.name, g.id, g.status, g.processor, g.driverDate, g.driverVersion)

/-- The simulation relation between the state of the row loop of `gpu.ts`
(`gpus` array plus `updatedIndexes` set) and the claim-side state (marked
base records plus created records): the array is the base records followed
by the created ones, an index below the base length is in `updatedIndexes`
exactly when its base record is marked merged, and every created record's
index is in `updatedIndexes`. -/
def MergeInv (gpus : List GPU) (updated : List ℕ) (base : List MarkedGPU)
    (created : List GPU) : Prop :=
  gpus = base.map (·.gpu) ++ created ∧
  (∀ j m, base.get? j = some m → (updated.contains j = true ↔ m.merged = true)) ∧
  (∀ j, base.length ≤ j → j < base.length + created.length → updated.contains j = true)

/-! ## Memory (`src/memory.ts`) -/

/-- JavaScript truthiness of a `number | undefined` field: `undefined` and
`0` are falsy. -/
def truthyQ (o : Option ℚ) : Bool :=
  match o with
  | none => false
  | some q => q != 0

/-- The `MemoryDevice` record of `memory.ts`. -/
structure MemoryDevice where
  manufacturer : Option String := none
  model : Option String := none
  type : Option String := none
  locator : Option String := none
  bankName : Option String := none
  size : Option ℚ := none
  clockSpeed : Option ℚ := none
  maxClockSpeed : Option ℚ := none
  busWidth : Option ℚ := none
  transfersPerClockCycle : Option ℚ := none
  voltage : Option ℚ := none
  bandwidth : Option ℚ := none
  deriving Repr, DecidableEq

/-- The guard of the post-processing loop of `getMemoryInfo`
(`device.size && device.busWidth && device.clockSpeed`). -/
def MemoryDevice.qualifies (d : MemoryDevice) : Bool :=
  truthyQ d.size && truthyQ d.busWidth && truthyQ d.clockSpeed

/-- `acc = acc ? Math.min(acc, x) : x` — the clock-speed / bus-width
accumulator update of `getMemoryInfo` (the right operand is the device field
already known to be truthy). -/
def accMin (acc : Option ℚ) (x : ℚ) : Option ℚ :=
  if truthyQ acc then some (min (acc.getD 0) x) else some x

/-- `acc = acc ? Math.min(acc, x ?? 1) : x` — the transfers-per-cycle
accumulator update of `getMemoryInfo`; note the `else` branch stores the
device's possibly-`undefined` field unchanged. -/
def accTpc (acc : Option ℚ) (x : Option ℚ) : Option ℚ :=
  if truthyQ acc then some (min (acc.getD 0) (x.getD 1)) else x

/-- The three local accumulators `clockSpeed`, `busWidth` and
`transfersPerCycle` of the post-processing loop of `getMemoryInfo`. -/
structure MemAcc where
  clockSpeed : Option ℚ := none
  busWidth : Option ℚ := none
  transfersPerCycle : Option ℚ := none
  deriving Repr, DecidableEq

/-- One iteration of the post-processing loop of `getMemoryInfo`
(lines 338-347 of `memory.ts`): for a qualifying device update the three
accumulators and set `device.bandwidth` to
`clockSpeed * 1e6 * busWidth / 8 * (transfersPerCycle ?? 1)` using the
device's own clock speed and bus width but the just-updated accumulator for
the transfers-per-cycle factor. -/
def memPostStep (st : MemAcc) (d : MemoryDevice) : MemAcc × MemoryDevice :=
  if d.qualifies then
    let dc := d.clockSpeed.getD 0
    let db := d.busWidth.getD 0
    let st' : MemAcc :=
      { clockSpeed := accMin st.clockSpeed dc
        busWidth := accMin st.busWidth db
        transfersPerCycle := accTpc st.transfersPerCycle d.transfersPerClockCycle }
    (st', { d with bandwidth := some (dc * 1000000 * db / 8 * (st'.transfersPerCycle.getD 1)) })
  else (st, d)

/-- The post-processing loop of `getMemoryInfo` over the device array,
threading the accumulators. -/
def memPostFold (st : MemAcc) : List MemoryDevice → MemAcc × List MemoryDevice
  | [] => (st, [])
  | d :: rest =>
    let p := memPostStep st d
    let q := memPostFold p.1 rest
    (q.1, p.2 :: q.2)

/-- The whole post-processing block of `getMemoryInfo` (lines 332-350 of
`memory.ts`): run the loop from empty accumulators, and when the clock-speed
and bus-width accumulators are truthy set the system bandwidth to
`clockSpeed * 1e6 * busWidth / 8 * (transfersPerCycle ?? 1) * parallelism`
with `parallelism = Math.max(1, interleavePositions.size)`. -/
def memPostProcess (devices : List MemoryDevice) (interleaveCount : ℕ) :
    List MemoryDevice × Option ℚ :=
  let parallelism : ℚ := max 1 (interleaveCount : ℚ)
  let r := memPostFold {} devices
  let bw :=
    if truthyQ r.1.clockSpeed ∧ truthyQ r.1.busWidth then
      some (r.1.clockSpeed.getD 0 * 1000000 * r.1.busWidth.getD 0 / 8 *
        (r.1.transfersPerCycle.getD 1) * parallelism)
    else none
  (r.2, bw)

/-- `Modelled from the spec:` the per-module bandwidth formula exactly as
claim C6 words it — the module's clock speed in MHz times 1e6 times its bus
width in bits divided by 8 times *its own* transfers-per-cycle factor
(default 1) — for a qualifying module. -/
def specDeviceBandwidth (d : MemoryDevice) : Option ℚ :=
  if d.qualifies then
    some (d.clockSpeed.getD 0 * 1000000 * d.busWidth.getD 0 / 8 *
      (d.transfersPerClockCycle.getD 1))
  else d.bandwidth

/-- The transfers-per-cycle factors of the qualifying devices, in order. -/
def qualTpcs (devs : List MemoryDevice) : List (Option ℚ) :=
  (devs.filter (·.qualifies)).map (·.transfersPerClockCycle)

/-- The clock speeds of the qualifying devices, in order. -/
def qualClocks (devs : List MemoryDevice) : List ℚ :=
  (devs.filter (·.qualifies)).map (fun d => d.clockSpeed.getD 0)

/-- The bus widths of the qualifying devices, in order. -/
def qualWidths (devs : List MemoryDevice) : List ℚ :=
  (devs.filter (·.qualifies)).map (fun d => d.busWidth.getD 0)

/-- The minimum of a list of rationals (`none` on the empty list) — the
claim-side "minimum clock speed / bus width across modules". -/
def listMin : List ℚ → Option ℚ
  | [] => none
  | x :: xs => some (xs.foldl min x)

/-! ## Docker containers (`src/docker.ts`) -/

/-- `haystack.includes(needle)` over character lists: some position of the
haystack starts with the needle. -/
def charsContains : List Char → List Char → Bool
  | [], sub => sub.isEmpty
  | a :: t, sub => sub.isPrefixOf (a :: t) || charsContains t sub

/-- The JavaScript `String.prototype.includes` builtin (substring test). -/
def jsIncludes (s sub : String) : Bool :=
  charsContains s.toList sub.toList

/-- Lines 159-167 of `docker.ts`: derive `j.HealthState` from the
human-readable status message — the `'unhealthy'` substring is checked
before `'healthy'`, then `'starting'`; a falsy (empty) status leaves the
health state undefined. -/
def deriveHealthState (status : String) : Option String :=
  if status ≠ "" then
    if jsIncludes status "unhealthy" then some "unhealthy"
    else if jsIncludes status "healthy" then some "healthy"
    else if jsIncludes status "starting" then some "starting"
    else none
  else none

/-- `isRunning: (j.State === 'running')` (line 184 of `docker.ts`). -/
def dockerIsRunning (state : String) : Bool :=
  state = "running"

/-- `isHealthy: (j.HealthState === 'healthy' || (j.State === 'running' &&
!j.HealthState))` (line 185 of `docker.ts`), with the health state derived
from the status message. -/
def dockerIsHealthy (state status : String) : Bool :=
  let h := deriveHealthState status
  h == some "healthy" || (state == "running" && h.isNone)

/-- The claim-side range predicate of §8 of the design document: a
percentage-valued field holds a finite fraction in `[0, 1]`. -/
def percentFieldInRange (v : Option ℚ) : Prop :=
  ∃ q, v = some q ∧ 0 ≤ q ∧ q ≤ 1

/-! ## Theorems -/

/-- C3: refutation by evaluation.  The claim says that whenever the total
counter delta between two snapshots is zero the returned rate is exactly 0
for the overall rate *and for every per-core rate*.  The overall rate is
guarded (`totalTotal !== 0 ? ... : 0`) and is 0 here, but the per-core
assignment `CPU_UTILIZATION.cores[i] = usage / total` has no guard: with two
identical snapshots for one core the stored per-core value is the
non-finite `0 / 0` (`NaN`, modelled `none`), not 0. -/
theorem computeCpu_zero_core_delta_is_nan :
    (computeCpuUtilization { cpuInitialState with
        prevCpuCores := [⟨1, 0, 0, 0, 1⟩] } [⟨1, 0, 0, 0, 1⟩]).utilization.cores = [none] ∧
    (computeCpuUtilization { cpuInitialState with
        prevCpuCores := [⟨1, 0, 0, 0, 1⟩] } [⟨1, 0, 0, 0, 1⟩]).utilization.overall = 0 ∧
    (computeCpuUtilization { cpuInitialState with
        prevCpuCores := [⟨1, 0, 0, 0, 1⟩] } [⟨1, 0, 0, 0, 1⟩]).utilization.cores ≠ [some 0] := by
  refine ⟨?_, ?_, ?_⟩ <;>
    simp [computeCpuUtilization, cpuInitialState, jsDiv, CpuTimes.busy, CpuTimes.total]

/-- C1: refutation by evaluation.  The public query `getCpuUtilization`
can return an entity record whose percentage-valued field `cores[0]` is the
non-finite `0 / 0` (modelled `none`) and hence not a fraction in `[0, 1]`:
it suffices that a core's tick counters do not advance between the two
warm-up snapshots. -/
theorem getCpuUtilization_percent_field_out_of_range :
    (getCpuUtilization cpuInitialState [⟨1, 0, 0, 0, 1⟩] [⟨1, 0, 0, 0, 1⟩]).2.cores = [none] ∧
    ¬ percentFieldInRange
      ((getCpuUtilization cpuInitialState [⟨1, 0, 0, 0, 1⟩] [⟨1, 0, 0, 0, 1⟩]).2.cores.getD 0 none) := by
  have h : (getCpuUtilization cpuInitialState [⟨1, 0, 0, 0, 1⟩]
      [⟨1, 0, 0, 0, 1⟩]).2.cores = [none] := by
    simp [getCpuUtilization, runCpuComputeInterval, computeCpuUtilization, cpuInitialState,
      jsDiv, CpuTimes.busy, CpuTimes.total]
  refine ⟨h, ?_⟩
  rintro ⟨q, hq, -, -⟩
  rw [h] at hq
  simp at hq

/-- C2: refutation.  In the win32 branch of `getDrives`, a failed source
tool is swallowed into the empty output string by `.catch(() => '')`, but
the subsequent `JSON.parse(output)` call throws on input holding no JSON
value, so the promise returned by `getDrives` rejects instead of resolving
with an empty array.  The `JSON.parse` builtin is passed as a parameter; the
hypothesis states the ECMA-262 fact that it throws a `SyntaxError` on the
empty string. -/
theorem getDrivesWin32_rejects_on_tool_failure
    (jsonParse : String → Except String (List WinDisk)) (e msg : String)
    (h : jsonParse "" = .error e) :
    getDrivesWin32 jsonParse (.error msg) = .error e := by
  simp [getDrivesWin32, h]

/-- Witness for `getDrivesWin32_rejects_on_tool_failure` at a concrete
parser and command failure. -/
theorem getDrivesWin32_rejects_on_tool_failure_witness :
    getDrivesWin32 (fun s => if s = "" then .error "SyntaxError" else .ok [])
      (.error "powershell not found") = .error "SyntaxError" :=
  getDrivesWin32_rejects_on_tool_failure _ _ _ (by rfl)

/-- C5: for every drive record built by `getDrives`, utilization is
`used / total` when `total ≠ 0` and `0` when `total = 0`, and the win32
branch (whose source reports only total and free) sets `used = total - free`. -/
theorem getDrives_utilization_formula :
    (∀ d : WinDisk,
      (mkWinDrive d).used = (mkWinDrive d).total - (mkWinDrive d).free ∧
      ((mkWinDrive d).total ≠ 0 →
        (mkWinDrive d).utilization = (mkWinDrive d).used / (mkWinDrive d).total) ∧
      ((mkWinDrive d).total = 0 → (mkWinDrive d).utilization = 0)) ∧
    (∀ parts : List String,
      ((mkLinuxDrive parts).total ≠ 0 →
        (mkLinuxDrive parts).utilization = (mkLinuxDrive parts).used / (mkLinuxDrive parts).total) ∧
      ((mkLinuxDrive parts).total = 0 → (mkLinuxDrive parts).utilization = 0)) := by
  constructor
  · intro d
    refine ⟨rfl, fun h => ?_, fun h => ?_⟩
    · show (if ((jsParseIntOr0 d.Size : ℚ)) ≠ 0 then
          ((jsParseIntOr0 d.Size : ℚ) - (jsParseIntOr0 d.FreeSpace : ℚ)) /
            (jsParseIntOr0 d.Size : ℚ) else 0) = _
      rw [if_pos (show ((jsParseIntOr0 d.Size : ℚ)) ≠ 0 from h)]
      rfl
    · show (if ((jsParseIntOr0 d.Size : ℚ)) ≠ 0 then
          ((jsParseIntOr0 d.Size : ℚ) - (jsParseIntOr0 d.FreeSpace : ℚ)) /
            (jsParseIntOr0 d.Size : ℚ) else 0) = 0
      rw [if_neg (not_not_intro (show ((jsParseIntOr0 d.Size : ℚ)) = 0 from h))]
  · intro parts
    refine ⟨fun h => ?_, fun h => ?_⟩
    · show (if ((jsParseIntOr0 (parts.getD 2 "") : ℚ)) ≠ 0 then
          (jsParseIntOr0 (parts.getD 3 "") : ℚ) / (jsParseIntOr0 (parts.getD 2 "") : ℚ)
          else 0) = _
      rw [if_pos (show ((jsParseIntOr0 (parts.getD 2 "") : ℚ)) ≠ 0 from h)]
      rfl
    · show (if ((jsParseIntOr0 (parts.getD 2 "") : ℚ)) ≠ 0 then
          (jsParseIntOr0 (parts.getD 3 "") : ℚ) / (jsParseIntOr0 (parts.getD 2 "") : ℚ)
          else 0) = 0
      rw [if_neg (not_not_intro (show ((jsParseIntOr0 (parts.getD 2 "") : ℚ)) = 0 from h))]

/-- Witness for `getDrives_utilization_formula`: the spec's worked example
`total = 1000, free = 400  ⇒  used = 600, utilization = 0.6`. -/
theorem getDrives_utilization_formula_witness :
    (mkWinDrive ⟨"C:", "", "1000", "400", "NTFS"⟩).utilization =
        (mkWinDrive ⟨"C:", "", "1000", "400", "NTFS"⟩).used /
          (mkWinDrive ⟨"C:", "", "1000", "400", "NTFS"⟩).total ∧
    (mkWinDrive ⟨"C:", "", "1000", "400", "NTFS"⟩).used = 600 ∧
    (mkWinDrive ⟨"C:", "", "1000", "400", "NTFS"⟩).utilization = 3 / 5 ∧
    (mkWinDrive ⟨"C:", "", "0", "0", "NTFS"⟩).utilization = 0 := by
  have h1 : jsParseIntOr0 "1000" = 1000 := by decide
  have h2 : jsParseIntOr0 "400" = 400 := by decide
  have h3 : jsParseIntOr0 "0" = 0 := by decide
  refine ⟨(getDrives_utilization_formula.1 _).2.1 ?_, ?_, ?_,
      (getDrives_utilization_formula.1 _).2.2 ?_⟩ <;>
    norm_num [mkWinDrive, h1, h2, h3]

/-- C8: the two lifecycle controls are idempotent — a second consecutive
stop call leaves the sampler state exactly as after the first, and stopping
a sampler that never ran leaves the initial state unchanged (total
functions: no exception is modelled because none can be raised). -/
theorem stop_computation_idempotent :
    (∀ s : CpuState,
      stopCpuUtilizationComputation (stopCpuUtilizationComputation s) =
        stopCpuUtilizationComputation s) ∧
    (∀ s : NetState,
      stopNetworkUtilizationComputation (stopNetworkUtilizationComputation s) =
        stopNetworkUtilizationComputation s) ∧
    stopCpuUtilizationComputation cpuInitialState = cpuInitialState ∧
    stopNetworkUtilizationComputation netInitialState = netInitialState :=
  ⟨fun _ => rfl, fun _ => rfl, rfl, rfl⟩

/-- C9: refutation by evaluation.  `stopCpuUtilizationComputation` does not
clear `PREV_CPU_CORES`, so the first recomputation of the restarting read
uses the snapshot retained from before the stop as its previous sample and
computes a rate from it (here `1/2`), while the restart protocol of the
design document (re-arm with a fresh first snapshot, stale snapshot
invalid) would compute no per-core rate at all. -/
theorem restart_reuses_prestop_snapshot :
    (restartFirstCompute
        (stopCpuUtilizationComputation
          { prevCpuCores := [⟨0, 0, 0, 0, 0⟩], utilization := { overall := 0, cores := [some 0] },
            running := true, timeoutArmed := true })
        [⟨10, 0, 0, 0, 10⟩]).utilization.cores = [some (1 / 2)] ∧
    (specFreshRestartFirstCompute
        (stopCpuUtilizationComputation
          { prevCpuCores := [⟨0, 0, 0, 0, 0⟩], utilization := { overall := 0, cores := [some 0] },
            running := true, timeoutArmed := true })
        [⟨10, 0, 0, 0, 10⟩]).utilization.cores = [] ∧
    (restartFirstCompute
        (stopCpuUtilizationComputation
          { prevCpuCores := [⟨0, 0, 0, 0, 0⟩], utilization := { overall := 0, cores := [some 0] },
            running := true, timeoutArmed := true })
        [⟨10, 0, 0, 0, 10⟩]).utilization.cores ≠
      (specFreshRestartFirstCompute
        (stopCpuUtilizationComputation
          { prevCpuCores := [⟨0, 0, 0, 0, 0⟩], utilization := { overall := 0, cores := [some 0] },
            running := true, timeoutArmed := true })
        [⟨10, 0, 0, 0, 10⟩]).utilization.cores := by
  refine ⟨?_, ?_, ?_⟩ <;>
    · simp [restartFirstCompute, specFreshRestartFirstCompute, runCpuComputeInterval,
        stopCpuUtilizationComputation, computeCpuUtilization, jsDiv, CpuTimes.busy,
        CpuTimes.total]
      try norm_num

/-- C9 (amended): stopping retains the previous snapshot, the restarting
read's first recomputation therefore runs against the pre-stop snapshot —
but the utilization value the restarting read finally returns is computed
from the two snapshots taken during the call and is independent of whatever
snapshot was retained across the stop. -/
theorem restart_returned_rate_fresh :
    (∀ s : CpuState,
      (stopCpuUtilizationComputation s).prevCpuCores = s.prevCpuCores) ∧
    (∀ s : CpuState,
      restartFirstCompute (stopCpuUtilizationComputation s) =
        restartFirstCompute { s with running := false, timeoutArmed := false }) ∧
    (∀ s s' : CpuState, ∀ c₁ c₂ : List CpuTimes,
      s.running = false → s'.running = false →
      (getCpuUtilization s c₁ c₂).2 = (getCpuUtilization s' c₁ c₂).2) := by
  refine ⟨fun _ => rfl, fun _ => rfl, ?_⟩
  intro s s' c₁ c₂ h h'
  simp [getCpuUtilization, h, h', runCpuComputeInterval, computeCpuUtilization]

/-- Witness for `restart_returned_rate_fresh`: a restart from a state with
a retained stale snapshot returns the same utilization as a restart from
the pristine initial state. -/
theorem restart_returned_rate_fresh_witness :
    (getCpuUtilization
        (stopCpuUtilizationComputation
          { prevCpuCores := [⟨5, 0, 0, 0, 5⟩], utilization := { overall := 0, cores := [some 0] },
            running := true, timeoutArmed := true })
        [⟨0, 0, 0, 0, 0⟩] [⟨3, 0, 0, 0, 1⟩]).2 =
      (getCpuUtilization cpuInitialState [⟨0, 0, 0, 0, 0⟩] [⟨3, 0, 0, 0, 1⟩]).2 :=
  restart_returned_rate_fresh.2.2 _ _ _ _ (by decide) (by decide)

/-- `includes` as occurrence: the haystack contains the needle exactly when
it splits around it. -/
theorem charsContains_iff (s sub : List Char) :
    charsContains s sub = true ↔ ∃ l r, s = l ++ sub ++ r := by
  induction s with
  | nil =>
    simp only [charsContains, List.isEmpty_iff]
    constructor
    · rintro rfl
      exact ⟨[], [], rfl⟩
    · rintro ⟨l, r, he⟩
      rcases List.append_eq_nil.mp he.symm with ⟨h1, h2⟩
      rcases List.append_eq_nil.mp h1 with ⟨-, h3⟩
      exact h3
  | cons a t ih =>
    simp only [charsContains, Bool.or_eq_true]
    constructor
    · rintro (hp | hc)
      · obtain ⟨r, hr⟩ := List.isPrefixOf_iff_prefix.mp hp
        exact ⟨[], r, by simpa using hr.symm⟩
      · obtain ⟨l, r, rfl⟩ := ih.mp hc
        exact ⟨a :: l, r, rfl⟩
    · rintro ⟨l, r, he⟩
      cases l with
      | nil =>
        left
        exact List.isPrefixOf_iff_prefix.mpr ⟨r, by simpa using he.symm⟩
      | cons x l =>
        right
        refine ih.mpr ⟨l, r, ?_⟩
        simpa using (List.cons_eq_cons.mp he).2

/-- Substring containment is transitive through a middle string. -/
theorem charsContains_trans {s a b : List Char} (h1 : charsContains s a = true)
    (h2 : charsContains a b = true) : charsContains s b = true := by
  rw [charsContains_iff] at h1 h2 ⊢
  obtain ⟨l, r, rfl⟩ := h1
  obtain ⟨l2, r2, rfl⟩ := h2
  exact ⟨l ++ l2, r2 ++ r, by simp⟩

/-- A status message containing `'unhealthy'` also contains `'healthy'` as a
substring — the reason the check order in `docker.ts` matters. -/
theorem jsIncludes_healthy_of_unhealthy {s : String} (h : jsIncludes s "unhealthy" = true) :
    jsIncludes s "healthy" = true :=
  charsContains_trans h (by decide)

/-- A status message containing `'unhealthy'` is nonempty, so the truthiness
guard of `docker.ts` line 159 passes. -/
theorem jsIncludes_unhealthy_ne_empty {s : String} (h : jsIncludes s "unhealthy" = true) :
    s ≠ "" := by
  intro he
  rw [he] at h
  exact absurd h (by decide)

/-- C10: `isHealthy` is true exactly when the derived health state is
`'healthy'`, or the state is `'running'` and no health state was derived;
and because the `'unhealthy'` substring is checked before `'healthy'`, any
status containing `'unhealthy'` yields `isHealthy = false` although it also
contains `'healthy'` as a substring. -/
theorem docker_isHealthy_characterization :
    (∀ state status : String,
      dockerIsHealthy state status = true ↔
        (deriveHealthState status = some "healthy" ∨
          (state = "running" ∧ deriveHealthState status = none))) ∧
    (∀ state status : String, jsIncludes status "unhealthy" = true →
      dockerIsHealthy state status = false ∧ jsIncludes status "healthy" = true) := by
  constructor
  · intro state status
    simp [dockerIsHealthy, Option.isNone_iff_eq_none]
  · intro state status h
    have hne : status ≠ "" := jsIncludes_unhealthy_ne_empty h
    have hu : deriveHealthState status = some "unhealthy" := by
      simp [deriveHealthState, hne, h]
    refine ⟨?_, jsIncludes_healthy_of_unhealthy h⟩
    simp [dockerIsHealthy, hu]

/-- Witness for `docker_isHealthy_characterization`: a running container
whose status message contains `'unhealthy'` is reported unhealthy. -/
theorem docker_isHealthy_characterization_witness :
    dockerIsHealthy "running" "Up 3 hours (unhealthy)" = false ∧
    jsIncludes "Up 3 hours (unhealthy)" "healthy" = true :=
  docker_isHealthy_characterization.2 "running" "Up 3 hours (unhealthy)" (by decide)

/-- `memoryTotal` only sets the top-level `memory` field, never the
utilization sub-record. -/
theorem applyMemoryTotal_utilization (r : SmiRow) (g : GPU) :
    (applyMemoryTotal r g).utilization = g.utilization := by
  unfold applyMemoryTotal
  split <;> rfl

/-- The GPU-utilization update of lines 173-176 touches neither the fan
speed nor the memory-utilization field nor the top-level memory size. -/
theorem applyUtilizationGPU_preserves (r : SmiRow) (g : GPU) :
    ((applyUtilizationGPU r g).utilization.getD GPUUtil.empty).fanSpeed =
        (g.utilization.getD GPUUtil.empty).fanSpeed ∧
    ((applyUtilizationGPU r g).utilization.getD GPUUtil.empty).memory =
        (g.utilization.getD GPUUtil.empty).memory ∧
    (applyUtilizationGPU r g).memory = g.memory := by
  unfold applyUtilizationGPU
  split <;> simp [setUtil]

/-- The memory-utilization update of lines 177-180 touches neither the fan
speed nor the processing field nor the top-level memory size. -/
theorem applyUtilizationMemory_preserves (r : SmiRow) (g : GPU) :
    ((applyUtilizationMemory r g).utilization.getD GPUUtil.empty).fanSpeed =
        (g.utilization.getD GPUUtil.empty).fanSpeed ∧
    ((applyUtilizationMemory r g).utilization.getD GPUUtil.empty).processing =
        (g.utilization.getD GPUUtil.empty).processing ∧
    (applyUtilizationMemory r g).memory = g.memory := by
  unfold applyUtilizationMemory
  split <;> simp [setUtil]

/-- The GPU-temperature update touches none of the conversion fields of C7. -/
theorem applyTemperatureGPU_preserves (r : SmiRow) (g : GPU) :
    ((applyTemperatureGPU r g).utilization.getD GPUUtil.empty).fanSpeed =
        (g.utilization.getD GPUUtil.empty).fanSpeed ∧
    ((applyTemperatureGPU r g).utilization.getD GPUUtil.empty).processing =
        (g.utilization.getD GPUUtil.empty).processing ∧
    ((applyTemperatureGPU r g).utilization.getD GPUUtil.empty).memory =
        (g.utilization.getD GPUUtil.empty).memory ∧
    (applyTemperatureGPU r g).memory = g.memory := by
  unfold applyTemperatureGPU
  split <;> simp [setUtil]

/-- The memory-temperature update touches none of the conversion fields of C7. -/
theorem applyTemperatureMemory_preserves (r : SmiRow) (g : GPU) :
    ((applyTemperatureMemory r g).utilization.getD GPUUtil.empty).fanSpeed =
        (g.utilization.getD GPUUtil.empty).fanSpeed ∧
    ((applyTemperatureMemory r g).utilization.getD GPUUtil.empty).processing =
        (g.utilization.getD GPUUtil.empty).processing ∧
    ((applyTemperatureMemory r g).utilization.getD GPUUtil.empty).memory =
        (g.utilization.getD GPUUtil.empty).memory ∧
    (applyTemperatureMemory r g).memory = g.memory := by
  unfold applyTemperatureMemory
  split <;> simp [setUtil]

/-- The power-draw update touches none of the conversion fields of C7. -/
theorem applyPowerDraw_preserves (r : SmiRow) (g : GPU) :
    ((applyPowerDraw r g).utilization.getD GPUUtil.empty).fanSpeed =
        (g.utilization.getD GPUUtil.empty).fanSpeed ∧
    ((applyPowerDraw r g).utilization.getD GPUUtil.empty).processing =
        (g.utilization.getD GPUUtil.empty).processing ∧
    ((applyPowerDraw r g).utilization.getD GPUUtil.empty).memory =
        (g.utilization.getD GPUUtil.empty).memory ∧
    (applyPowerDraw r g).memory = g.memory := by
  unfold applyPowerDraw
  split <;> simp [setUtil]

/-- A present, parsing fan-speed column is stored divided by 100. -/
theorem applyFanSpeed_sets {r : SmiRow} (g : GPU) {v : ℚ} (h : r.fanSpeed ≠ "")
    (hp : jsParseFloat r.fanSpeed = some v) :
    ((applyFanSpeed r g).utilization.getD GPUUtil.empty).fanSpeed = some (v / 100) := by
  unfold applyFanSpeed
  rw [if_pos h, hp]
  simp [setUtil]

/-- A present, parsing GPU-utilization column is stored divided by 100. -/
theorem applyUtilizationGPU_sets {r : SmiRow} (g : GPU) {v : ℚ} (h : r.utilizationGPU ≠ "")
    (hp : jsParseFloat r.utilizationGPU = some v) :
    ((applyUtilizationGPU r g).utilization.getD GPUUtil.empty).processing = some (v / 100) := by
  unfold applyUtilizationGPU
  rw [if_pos h, hp]
  simp [setUtil]

/-- A present, parsing memory-utilization column is stored divided by 100. -/
theorem applyUtilizationMemory_sets {r : SmiRow} (g : GPU) {v : ℚ} (h : r.utilizationMemory ≠ "")
    (hp : jsParseFloat r.utilizationMemory = some v) :
    ((applyUtilizationMemory r g).utilization.getD GPUUtil.empty).memory = some (v / 100) := by
  unfold applyUtilizationMemory
  rw [if_pos h, hp]
  simp [setUtil]

/-- A present, parsing memory-size column (MiB) is stored times 1024·1024. -/
theorem applyMemoryTotal_sets {r : SmiRow} (g : GPU) {m : ℤ} (h : r.memoryTotal ≠ "")
    (hp : jsParseInt r.memoryTotal = some m) :
    (applyMemoryTotal r g).memory = some (m * 1024 * 1024) := by
  unfold applyMemoryTotal
  rw [if_pos h, hp]

/-- C7: every percentage-like field taken from the `nvidia-smi` row (fan
speed, GPU utilization, memory utilization) is the raw value divided by 100,
and the GPU memory size is the raw MiB value times 1024 · 1024 bytes. -/
theorem gpu_unit_conversions (g : GPU) (r : SmiRow) :
    (∀ v : ℚ, r.fanSpeed ≠ "" → jsParseFloat r.fanSpeed = some v →
      ((rowApply g r).utilization.getD GPUUtil.empty).fanSpeed = some (v / 100)) ∧
    (∀ v : ℚ, r.utilizationGPU ≠ "" → jsParseFloat r.utilizationGPU = some v →
      ((rowApply g r).utilization.getD GPUUtil.empty).processing = some (v / 100)) ∧
    (∀ v : ℚ, r.utilizationMemory ≠ "" → jsParseFloat r.utilizationMemory = some v →
      ((rowApply g r).utilization.getD GPUUtil.empty).memory = some (v / 100)) ∧
    (∀ m : ℤ, r.memoryTotal ≠ "" → jsParseInt r.memoryTotal = some m →
      (rowApply g r).memory = some (m * 1024 * 1024)) := by
  unfold rowApply
  refine ⟨fun v h hp => ?_, fun v h hp => ?_, fun v h hp => ?_, fun m h hp => ?_⟩
  · rw [(applyPowerDraw_preserves r _).1, (applyTemperatureMemory_preserves r _).1,
      (applyTemperatureGPU_preserves r _).1, (applyUtilizationMemory_preserves r _).1,
      (applyUtilizationGPU_preserves r _).1, applyMemoryTotal_utilization r _]
    exact applyFanSpeed_sets _ h hp
  · rw [(applyPowerDraw_preserves r _).2.1, (applyTemperatureMemory_preserves r _).2.1,
      (applyTemperatureGPU_preserves r _).2.1, (applyUtilizationMemory_preserves r _).2.1]
    exact applyUtilizationGPU_sets _ h hp
  · rw [(applyPowerDraw_preserves r _).2.2.1, (applyTemperatureMemory_preserves r _).2.2.1,
      (applyTemperatureGPU_preserves r _).2.2.1]
    exact applyUtilizationMemory_sets _ h hp
  · rw [(applyPowerDraw_preserves r _).2.2.2, (applyTemperatureMemory_preserves r _).2.2.2,
      (applyTemperatureGPU_preserves r _).2.2.2, (applyUtilizationMemory_preserves r _).2.2,
      (applyUtilizationGPU_preserves r _).2.2]
    exact applyMemoryTotal_sets _ h hp

/-- Witness for `gpu_unit_conversions`: a row with fan speed 50, GPU
utilization 25 and 1 MiB of memory gives fractions 1/2 and 1/4 and
1,048,576 bytes. -/
theorem gpu_unit_conversions_witness :
    ((rowApply (blankGpu "X")
        { name := "X", fanSpeed := "50", memoryTotal := "1", utilizationGPU := "25" }).utilization.getD
          GPUUtil.empty).fanSpeed = some (50 / 100) ∧
    ((rowApply (blankGpu "X")
        { name := "X", fanSpeed := "50", memoryTotal := "1", utilizationGPU := "25" }).utilization.getD
          GPUUtil.empty).processing = some (25 / 100) ∧
    (rowApply (blankGpu "X")
        { name := "X", fanSpeed := "50", memoryTotal := "1", utilizationGPU := "25" }).memory =
      some (1 * 1024 * 1024) ∧ ((1 : ℤ) * 1024 * 1024 = 1048576) :=
  ⟨(gpu_unit_conversions _ _).1 50 (by decide) (by simp [jsParseFloat]),
    (gpu_unit_conversions _ _).2.1 25 (by decide) (by simp [jsParseFloat]),
    (gpu_unit_conversions _ _).2.2.2 1 (by decide) (by simp [jsParseInt]),
    by norm_num⟩

theorem qualTpcs_nil : qualTpcs [] = [] := rfl

theorem qualClocks_nil : qualClocks [] = [] := rfl

theorem qualWidths_nil : qualWidths [] = [] := rfl

theorem qualTpcs_cons (d : MemoryDevice) (l : List MemoryDevice) :
    qualTpcs (d :: l) =
      if d.qualifies then d.transfersPerClockCycle :: qualTpcs l else qualTpcs l := by
  simp only [qualTpcs, List.filter_cons]
  split <;> simp

theorem qualClocks_cons (d : MemoryDevice) (l : List MemoryDevice) :
    qualClocks (d :: l) =
      if d.qualifies then d.clockSpeed.getD 0 :: qualClocks l else qualClocks l := by
  simp only [qualClocks, List.filter_cons]
  split <;> simp

theorem qualWidths_cons (d : MemoryDevice) (l : List MemoryDevice) :
    qualWidths (d :: l) =
      if d.qualifies then d.busWidth.getD 0 :: qualWidths l else qualWidths l := by
  simp only [qualWidths, List.filter_cons]
  split <;> simp

/-- The three accumulators after the post-processing loop are folds over the
qualifying devices' fields. -/
theorem memPostFold_acc (st : MemAcc) (devs : List MemoryDevice) :
    (memPostFold st devs).1 =
      { clockSpeed := (qualClocks devs).foldl accMin st.clockSpeed
        busWidth := (qualWidths devs).foldl accMin st.busWidth
        transfersPerCycle := (qualTpcs devs).foldl accTpc st.transfersPerCycle } := by
  induction devs generalizing st with
  | nil => simp [memPostFold, qualClocks, qualWidths, qualTpcs]
  | cons d rest ih =>
    by_cases hq : d.qualifies
    · simp [memPostFold, memPostStep, hq, qualClocks_cons, qualWidths_cons,
        qualTpcs_cons, ih]
    · simp [memPostFold, memPostStep, hq, qualClocks_cons, qualWidths_cons,
        qualTpcs_cons, ih]

/-- Device `i` after the post-processing loop: a qualifying device gets the
bandwidth computed from its own clock speed and bus width and the
transfers-per-cycle accumulator folded over the qualifying prefix up to and
including it; a non-qualifying device is untouched. -/
theorem memPostFold_get (st : MemAcc) (devs : List MemoryDevice) :
    ∀ i d, devs.get? i = some d →
      (memPostFold st devs).2.get? i = some (
        if d.qualifies then
          { d with bandwidth := some (d.clockSpeed.getD 0 * 1000000 * d.busWidth.getD 0 / 8 *
              (((qualTpcs (devs.take (i + 1))).foldl accTpc st.transfersPerCycle).getD 1)) }
        else d) := by
  induction devs generalizing st with
  | nil => intro i d h; simp at h
  | cons d0 rest ih =>
    intro i d h
    cases i with
    | zero =>
      simp only [List.get?_cons_zero, Option.some.injEq] at h
      subst h
      by_cases hq : d0.qualifies
      · simp [memPostFold, memPostStep, hq, qualTpcs_cons, qualTpcs_nil]
      · simp [memPostFold, memPostStep, hq, qualTpcs_cons, qualTpcs_nil]
    | succ n =>
      simp only [List.get?_cons_succ] at h
      have step : (memPostFold st (d0 :: rest)).2.get? (n + 1) =
          (memPostFold (memPostStep st d0).1 rest).2.get? n := by
        simp [memPostFold]
      rw [step, ih _ n d h]
      by_cases hq0 : d0.qualifies
      · simp [List.take_cons, qualTpcs_cons, hq0, memPostStep]
      · simp [List.take_cons, qualTpcs_cons, hq0, memPostStep]

theorem truthyQ_getD_ne {o : Option ℚ} (h : truthyQ o = true) : o.getD 0 ≠ 0 := by
  cases o with
  | none => simp [truthyQ] at h
  | some q => simpa [truthyQ] using h

theorem truthyQ_of_getD_ne {o : Option ℚ} (h : o.getD 0 ≠ 0) : truthyQ o = true := by
  cases o with
  | none => simp at h
  | some q => simpa [truthyQ] using h

theorem foldl_min_ne_zero {x : ℚ} {l : List ℚ} (hx : x ≠ 0) (hl : ∀ y ∈ l, y ≠ 0) :
    l.foldl min x ≠ 0 := by
  induction l generalizing x with
  | nil => exact hx
  | cons y ys ih =>
    have hxy : min x y ≠ 0 := by
      rcases min_choice x y with h | h <;> rw [h]
      · exact hx
      · exact hl y (by simp)
    exact ih hxy (fun z hz => hl z (by simp [hz]))

/-- Over nonzero inputs the `acc = acc ? min(acc, x) : x` accumulator stays
truthy, so its fold is the plain minimum fold. -/
theorem foldl_accMin_some {x : ℚ} (l : List ℚ) (hx : x ≠ 0) (hl : ∀ y ∈ l, y ≠ 0) :
    l.foldl accMin (some x) = some (l.foldl min x) := by
  induction l generalizing x with
  | nil => rfl
  | cons y ys ih =>
    have hxy : min x y ≠ 0 := by
      rcases min_choice x y with h | h <;> rw [h]
      · exact hx
      · exact hl y (by simp)
    have hstep : accMin (some x) y = some (min x y) := by
      simp [accMin, truthyQ, hx]
    simp only [List.foldl_cons, hstep]
    exact ih hxy (fun z hz => hl z (by simp [hz]))

/-- Over nonzero inputs the min-accumulator computes the list minimum. -/
theorem foldl_accMin_none (l : List ℚ) (hl : ∀ y ∈ l, y ≠ 0) :
    l.foldl accMin none = listMin l := by
  cases l with
  | nil => rfl
  | cons x xs =>
    have hx : x ≠ 0 := hl x (by simp)
    have hstep : accMin none x = some x := rfl
    simp only [List.foldl_cons, hstep, listMin]
    rw [foldl_accMin_some xs hx (fun z hz => hl z (by simp [hz]))]

/-- The clock speed of a qualifying device is nonzero (its truthiness was
checked). -/
theorem qualClocks_ne_zero (devs : List MemoryDevice) : ∀ y ∈ qualClocks devs, y ≠ 0 := by
  intro y hy
  simp only [qualClocks, List.mem_map, List.mem_filter] at hy
  obtain ⟨d, ⟨-, hq⟩, rfl⟩ := hy
  have ht : truthyQ d.clockSpeed = true := by
    have h2 := hq
    unfold MemoryDevice.qualifies at h2
    simp only [Bool.and_eq_true] at h2
    exact h2.2
  exact truthyQ_getD_ne ht

/-- The bus width of a qualifying device is nonzero. -/
theorem qualWidths_ne_zero (devs : List MemoryDevice) : ∀ y ∈ qualWidths devs, y ≠ 0 := by
  intro y hy
  simp only [qualWidths, List.mem_map, List.mem_filter] at hy
  obtain ⟨d, ⟨-, hq⟩, rfl⟩ := hy
  have ht : truthyQ d.busWidth = true := by
    have h2 := hq
    unfold MemoryDevice.qualifies at h2
    simp only [Bool.and_eq_true] at h2
    exact h2.1.2
  exact truthyQ_getD_ne ht

theorem qualWidths_eq_nil_iff (devs : List MemoryDevice) :
    qualWidths devs = [] ↔ qualClocks devs = [] := by
  simp [qualWidths, qualClocks]

/-- C6 (amended): a qualifying device's bandwidth is its own clock speed in
MHz × 1e6 × its own bus width / 8 × the *running accumulator* of
transfers-per-cycle factors over the qualifying devices up to and including
it (not the device's own factor), defaulted to 1; the system bandwidth uses
the minimum clock speed and minimum bus width across qualifying devices, the
final accumulator value (default 1) and `max 1 (#distinct interleave
positions)`, and is present exactly when some device qualifies. -/
theorem mem_bandwidth_characterization (devs : List MemoryDevice) (n : ℕ) :
    (∀ i d, devs.get? i = some d → d.qualifies = true →
      (memPostProcess devs n).1.get? i = some { d with bandwidth := some (
        d.clockSpeed.getD 0 * 1000000 * d.busWidth.getD 0 / 8 *
          (((qualTpcs (devs.take (i + 1))).foldl accTpc none).getD 1)) }) ∧
    (∀ i d, devs.get? i = some d → d.qualifies = false →
      (memPostProcess devs n).1.get? i = some d) ∧
    (qualClocks devs ≠ [] →
      (memPostProcess devs n).2 = some ((listMin (qualClocks devs)).getD 0 * 1000000 *
        (listMin (qualWidths devs)).getD 0 / 8 * (((qualTpcs devs).foldl accTpc none).getD 1) *
        max 1 (n : ℚ))) ∧
    (qualClocks devs = [] → (memPostProcess devs n).2 = none) := by
  have hget := memPostFold_get {} devs
  have hacc := memPostFold_acc {} devs
  refine ⟨?_, ?_, ?_, ?_⟩
  · intro i d h hq
    have h2 := hget i d h
    rw [hq] at h2
    simpa [memPostProcess] using h2
  · intro i d h hq
    have h2 := hget i d h
    rw [hq] at h2
    simpa [memPostProcess] using h2
  · intro hne
    obtain ⟨x, xs, hL⟩ : ∃ x xs, qualClocks devs = x :: xs := by
      cases hL : qualClocks devs with
      | nil => exact absurd hL hne
      | cons x xs => exact ⟨x, xs, rfl⟩
    obtain ⟨w, ws, hW⟩ : ∃ w ws, qualWidths devs = w :: ws := by
      cases hW : qualWidths devs with
      | nil => exact absurd ((qualWidths_eq_nil_iff devs).mp hW) hne
      | cons w ws => exact ⟨w, ws, rfl⟩
    have hclocks := qualClocks_ne_zero devs
    have hwidths := qualWidths_ne_zero devs
    have hcl : (qualClocks devs).foldl accMin (none : Option ℚ) = listMin (qualClocks devs) :=
      foldl_accMin_none _ hclocks
    have hwd : (qualWidths devs).foldl accMin (none : Option ℚ) = listMin (qualWidths devs) :=
      foldl_accMin_none _ hwidths
    have hclne : (listMin (qualClocks devs)).getD 0 ≠ 0 := by
      rw [hL]
      simp only [listMin, Option.getD_some]
      exact foldl_min_ne_zero (hclocks x (by rw [hL]; simp))
        (fun z hz => hclocks z (by rw [hL]; simp [hz]))
    have hwdne : (listMin (qualWidths devs)).getD 0 ≠ 0 := by
      rw [hW]
      simp only [listMin, Option.getD_some]
      exact foldl_min_ne_zero (hwidths w (by rw [hW]; simp))
        (fun z hz => hwidths z (by rw [hW]; simp [hz]))
    have htr1 : truthyQ ((qualClocks devs).foldl accMin none) = true := by
      rw [hcl]
      exact truthyQ_of_getD_ne (by rw [hL] at hclne ⊢; simpa [listMin] using hclne)
    have htr2 : truthyQ ((qualWidths devs).foldl accMin none) = true := by
      rw [hwd]
      exact truthyQ_of_getD_ne (by rw [hW] at hwdne ⊢; simpa [listMin] using hwdne)
    simp only [memPostProcess, hacc, hcl, hwd]
    rw [if_pos ⟨hcl ▸ htr1, hwd ▸ htr2⟩]
  · intro hnil
    have hwnil : qualWidths devs = [] := (qualWidths_eq_nil_iff devs).mpr hnil
    simp [memPostProcess, hacc, hnil, hwnil, truthyQ]

/-- Witness for `mem_bandwidth_characterization`: one qualifying DDR4-style
module (clock 100 MHz, bus 64 bit, factor 2) with 3 interleave positions. -/
theorem mem_bandwidth_characterization_witness :
    (memPostProcess [{ size := some 1048576, busWidth := some 64, clockSpeed := some 100, transfersPerClockCycle := some 2 }] 3).1.get? 0 =
      some { ({ size := some 1048576, busWidth := some 64, clockSpeed := some 100, transfersPerClockCycle := some 2 } : MemoryDevice) with
        bandwidth := some (
          ({ size := some 1048576, busWidth := some 64, clockSpeed := some 100, transfersPerClockCycle := some 2 } : MemoryDevice).clockSpeed.getD 0 * 1000000 *
            ({ size := some 1048576, busWidth := some 64, clockSpeed := some 100, transfersPerClockCycle := some 2 } : MemoryDevice).busWidth.getD 0 / 8 *
            (((qualTpcs ([({ size := some 1048576, busWidth := some 64, clockSpeed := some 100, transfersPerClockCycle := some 2 } : MemoryDevice)].take (0 + 1))).foldl accTpc none).getD 1)) } :=
  (mem_bandwidth_characterization
      [{ size := some 1048576, busWidth := some 64, clockSpeed := some 100, transfersPerClockCycle := some 2 }] 3).1 0 _ rfl
    (by norm_num [MemoryDevice.qualifies, truthyQ])

/-- C6: refutation of the claim as stated.  The third device's bandwidth is
computed with the running minimum of the transfers-per-cycle accumulator
(which the factor-less second device dragged down to 1), not with the third
device's own factor 2: the code yields 8·10⁸ B/s where the claim's formula
(`specDeviceBandwidth`) yields 1.6·10⁹ B/s. -/
theorem mem_bandwidth_not_own_factor :
    ((memPostProcess
        [ { size := some 1048576, busWidth := some 64, clockSpeed := some 100,
            transfersPerClockCycle := some 2 },
          { size := some 1048576, busWidth := some 64, clockSpeed := some 100 },
          { size := some 1048576, busWidth := some 64, clockSpeed := some 100,
            transfersPerClockCycle := some 2 } ] 0).1.map
        (·.bandwidth)) = [some 1600000000, some 800000000, some 800000000] ∧
    specDeviceBandwidth
        { size := some 1048576, busWidth := some 64, clockSpeed := some 100,
          transfersPerClockCycle := some 2 } = some 1600000000 ∧
    ((800000000 : ℚ) ≠ 1600000000) := by
  refine ⟨?_, ?_, by norm_num⟩
  · simp [memPostProcess, memPostFold, memPostStep, accMin, accTpc, truthyQ,
      MemoryDevice.qualifies]
    norm_num
  · simp [specDeviceBandwidth, MemoryDevice.qualifies, truthyQ]
    norm_num

/-- A scan over a segment whose indices are all in `updatedIndexes` finds
nothing. -/
theorem findUnmergedAux_all_marked (u : List ℕ) (nm : String) (ys : List GPU) :
    ∀ i, (∀ j, i ≤ j → j < i + ys.length → u.contains j = true) →
      findUnmergedAux u nm i ys = none := by
  induction ys with
  | nil => intro i _; rfl
  | cons g rest ih =>
    intro i h
    have hi : u.contains i = true := h i (le_refl i) (by simp)
    simp only [findUnmergedAux]
    rw [if_neg (fun hcc => hcc.1 hi)]
    refine ih (i + 1) (fun j h1 h2 => h j (by omega) (by simp at h2 ⊢; omega))

/-- A hit in the first segment is the hit of the whole scan. -/
theorem findUnmergedAux_append_some (u : List ℕ) (nm : String) (xs ys : List GPU) :
    ∀ i p, findUnmergedAux u nm i xs = some p →
      findUnmergedAux u nm i (xs ++ ys) = some p := by
  induction xs with
  | nil => intro i p h; exact absurd h (by simp [findUnmergedAux])
  | cons g rest ih =>
    intro i p h
    simp only [findUnmergedAux] at h
    simp only [List.cons_append, findUnmergedAux]
    by_cases hc : ¬ u.contains i = true ∧ g.name = nm
    · rw [if_pos hc] at h ⊢
      exact h
    · rw [if_neg hc] at h ⊢
      exact ih (i + 1) p h

/-- A miss in the first segment continues the scan in the second with the
shifted offset. -/
theorem findUnmergedAux_append_none (u : List ℕ) (nm : String) (xs ys : List GPU) :
    ∀ i, findUnmergedAux u nm i xs = none →
      findUnmergedAux u nm i (xs ++ ys) = findUnmergedAux u nm (i + xs.length) ys := by
  induction xs with
  | nil => intro i _; simp [findUnmergedAux]
  | cons g rest ih =>
    intro i h
    simp only [findUnmergedAux] at h
    simp only [List.cons_append, findUnmergedAux]
    by_cases hc : ¬ u.contains i = true ∧ g.name = nm
    · rw [if_pos hc] at h
      exact absurd h (by simp)
    · rw [if_neg hc] at h ⊢
      simp only [List.append_eq]
      rw [ih (i + 1) h]
      congr 1
      simp
      omega

/-- When the head is not a claim-side merge target (merged, or name
mismatch), the code-side scan skips it too. -/
theorem find_head_cond_false {u : List ℕ} {i : ℕ} {m : MarkedGPU} {r : SmiRow}
    (h0 : u.contains i = true ↔ m.merged = true)
    (hc : ¬ (¬ m.merged = true ∧ m.gpu.name = r.name)) :
    ¬ (¬ u.contains i = true ∧ m.gpu.name = r.name) := by
  rintro ⟨hcont, hname⟩
  exact hc ⟨fun hm => hcont (h0.mpr hm), hname⟩

/-- When the claim-side merge finds no unmerged matching base record, the
code-side scan over the base segment misses. -/
theorem specMergeInto_none_find (r : SmiRow) (u : List ℕ) : ∀ (base : List MarkedGPU) (i : ℕ),
    (∀ j m, base.get? j = some m → (u.contains (i + j) = true ↔ m.merged = true)) →
    specMergeInto base r = none →
    findUnmergedAux u r.name i (base.map (·.gpu)) = none := by
  intro base
  induction base with
  | nil => intro i _ _; rfl
  | cons m rest ih =>
    intro i hup hs
    unfold specMergeInto at hs
    by_cases hc : ¬ m.merged = true ∧ m.gpu.name = r.name
    · rw [if_pos hc] at hs
      exact absurd hs (by simp)
    · rw [if_neg hc] at hs
      have hrest : specMergeInto rest r = none := by
        cases hsr : specMergeInto rest r with
        | none => rfl
        | some b => rw [hsr] at hs; simp at hs
      have h0 := hup 0 m rfl
      rw [Nat.add_zero] at h0
      show findUnmergedAux u r.name i (m.gpu :: rest.map (·.gpu)) = none
      simp only [findUnmergedAux]
      rw [if_neg (find_head_cond_false h0 hc)]
      refine ih (i + 1) (fun j mm hj => ?_) hrest
      have h2 := hup (j + 1) mm (by simpa using hj)
      rw [show i + (j + 1) = i + 1 + j by omega] at h2
      exact h2

/-- When the claim-side merge hits, the code-side scan over the base segment
returns the same (first unmerged, name-matching) record and index. -/
theorem specMergeInto_some_find (r : SmiRow) (u : List ℕ) : ∀ (base : List MarkedGPU) (i : ℕ)
    (base' : List MarkedGPU),
    (∀ j m, base.get? j = some m → (u.contains (i + j) = true ↔ m.merged = true)) →
    specMergeInto base r = some base' →
    ∃ k m, base.get? k = some m ∧ m.merged = false ∧ m.gpu.name = r.name ∧
      base' = base.set k ⟨rowApply m.gpu r, true⟩ ∧
      findUnmergedAux u r.name i (base.map (·.gpu)) = some (i + k, m.gpu) := by
  intro base
  induction base with
  | nil => intro i b _ hs; exact absurd hs (by simp [specMergeInto])
  | cons m rest ih =>
    intro i base' hup hs
    unfold specMergeInto at hs
    have h0 := hup 0 m rfl
    rw [Nat.add_zero] at h0
    by_cases hc : ¬ m.merged = true ∧ m.gpu.name = r.name
    · rw [if_pos hc] at hs
      have hbase' : base' = ⟨rowApply m.gpu r, true⟩ :: rest := (Option.some_inj.mp hs).symm
      have hmf : m.merged = false := by
        cases hmm : m.merged
        · rfl
        · exact absurd hmm hc.1
      have hcont : u.contains i = false := by
        cases hcc : u.contains i
        · rfl
        · exact absurd (h0.mp hcc) hc.1
      refine ⟨0, m, rfl, hmf, hc.2, by simp [hbase'], ?_⟩
      show findUnmergedAux u r.name i (m.gpu :: rest.map (·.gpu)) = some (i + 0, m.gpu)
      simp only [findUnmergedAux]
      rw [if_pos ⟨fun hcc => (by rw [hcc] at hcont; cases hcont), hc.2⟩, Nat.add_zero]
    · rw [if_neg hc] at hs
      cases hsr : specMergeInto rest r with
      | none => rw [hsr] at hs; exact absurd hs (by simp)
      | some rest' =>
        rw [hsr] at hs
        have hbase' : base' = m :: rest' := by
          simpa using (Option.some_inj.mp hs).symm
        obtain ⟨k, mm, hget, hmg, hnm, hset, hfind⟩ := ih (i + 1) rest'
          (fun j mj hj => by
            have h2 := hup (j + 1) mj (by simpa using hj)
            rw [show i + (j + 1) = i + 1 + j by omega] at h2
            exact h2)
          hsr
        refine ⟨k + 1, mm, by simpa using hget, hmg, hnm, ?_, ?_⟩
        · rw [hbase', hset, List.set_cons_succ]
        · show findUnmergedAux u r.name i (m.gpu :: rest.map (·.gpu)) = some (i + (k + 1), mm.gpu)
          simp only [findUnmergedAux]
          rw [if_neg (find_head_cond_false h0 hc)]
          rw [hfind]
          congr 2
          omega

/-- One row of the `nvidia-smi` loop preserves the simulation relation
between the code state and the claim-side state. -/
theorem mergeStep_inv {gpus : List GPU} {updated : List ℕ} {base : List MarkedGPU}
    {created : List GPU} (r : SmiRow) (h : MergeInv gpus updated base created) :
    MergeInv (applySmiRow (gpus, updated) r).1 (applySmiRow (gpus, updated) r).2
      (specMergeStep (base, created) r).1 (specMergeStep (base, created) r).2 := by
  obtain ⟨hg, hup, hcr⟩ := h
  subst hg
  cases hs : specMergeInto base r with
  | none =>
    have hbase := specMergeInto_none_find r updated base 0 (by simpa using hup) hs
    have happ := findUnmergedAux_append_none updated r.name (base.map (·.gpu)) created 0 hbase
    have hcreated : findUnmergedAux updated r.name (0 + (base.map (·.gpu)).length) created = none := by
      apply findUnmergedAux_all_marked
      intro j h1 h2
      exact hcr j (by simpa using h1) (by simp at h2 ⊢; omega)
    have hfind : findUnmergedIdx (base.map (·.gpu) ++ created) updated r.name = none := by
      unfold findUnmergedIdx
      rw [happ, hcreated]
    simp only [applySmiRow, hfind, specMergeStep, hs]
    refine ⟨by simp, ?_, ?_⟩
    · intro j m hj
      have hjlt : j < base.length := (List.get?_eq_some.mp hj).1
      constructor
      · intro hcont
        simp only [List.contains_cons, Bool.or_eq_true, beq_iff_eq] at hcont
        rcases hcont with he | hu
        · exfalso
          simp at he
          omega
        · exact (hup j m hj).mp hu
      · intro hm
        have hc2 := (hup j m hj).mpr hm
        simp only [List.contains_cons, Bool.or_eq_true]
        exact Or.inr hc2
    · intro j h1 h2
      simp only [List.length_append] at h2
      by_cases hj : j = base.length + created.length
      · simp only [List.contains_cons, Bool.or_eq_true, beq_iff_eq]
        left
        simp [hj]
      · have hc2 := hcr j h1 (by simp at h2; omega)
        simp only [List.contains_cons, Bool.or_eq_true]
        exact Or.inr hc2
  | some base' =>
    obtain ⟨k, m, hget, hmg, hnm, hset, hfind0⟩ :=
      specMergeInto_some_find r updated base 0 base' (by simpa using hup) hs
    rw [Nat.zero_add] at hfind0
    have happ := findUnmergedAux_append_some updated r.name (base.map (·.gpu)) created 0
      (k, m.gpu) hfind0
    have hfind : findUnmergedIdx (base.map (·.gpu) ++ created) updated r.name =
        some (k, m.gpu) := by
      unfold findUnmergedIdx
      exact happ
    have hk : k < base.length := (List.get?_eq_some.mp hget).1
    simp only [applySmiRow, hfind, specMergeStep, hs]
    refine ⟨?_, ?_, ?_⟩
    · rw [hset, List.set_append_left _ _ (by simpa using hk)]
      congr 1
      simp [List.map_set]
    · intro j mm hj
      rw [hset] at hj
      by_cases hjk : j = k
      · subst hjk
        rw [List.get?_eq_getElem?] at hj
        rw [List.getElem?_set_self (by simpa using hk)] at hj
        have hmm : mm = ⟨rowApply m.gpu r, true⟩ := by
          simpa using hj.symm
        subst hmm
        simp [List.contains_cons]
      · rw [List.get?_eq_getElem?] at hj
        rw [List.getElem?_set_ne (Ne.symm hjk)] at hj
        rw [← List.get?_eq_getElem?] at hj
        have hiff := hup j mm hj
        constructor
        · intro hcont
          simp only [List.contains_cons, Bool.or_eq_true, beq_iff_eq] at hcont
          rcases hcont with he | hu
          · exact absurd he hjk
          · exact hiff.mp hu
        · intro hm
          simp only [List.contains_cons, Bool.or_eq_true]
          exact Or.inr (hiff.mpr hm)
    · intro j h1 h2
      rw [hset, List.length_set] at h1 h2
      have hc2 := hcr j h1 h2
      simp only [List.contains_cons, Bool.or_eq_true]
      exact Or.inr hc2

/-- The whole row loop preserves the simulation relation. -/
theorem mergeFold_inv (rows : List SmiRow) :
    ∀ {gpus : List GPU} {updated : List ℕ} {base : List MarkedGPU} {created : List GPU},
    MergeInv gpus updated base created →
    MergeInv (rows.foldl applySmiRow (gpus, updated)).1
      (rows.foldl applySmiRow (gpus, updated)).2
      (rows.foldl specMergeStep (base, created)).1
      (rows.foldl specMergeStep (base, created)).2 := by
  induction rows with
  | nil => intro gpus updated base created h; exact h
  | cons r rest ih =>
    intro gpus updated base created h
    have hstep := mergeStep_inv r h
    simpa [List.foldl_cons] using ih hstep

/-- The `nvidia-smi` pass of `getGPUs` computes exactly the two-pass merge
the design document describes. -/
theorem getGPUs_merge_equiv (gpus : List GPU) (rows : List SmiRow) :
    getGPUsSmiPass gpus rows = specMerge gpus rows := by
  have hinit : MergeInv gpus [] (gpus.map (⟨·, false⟩)) [] := by
    refine ⟨?_, ?_, ?_⟩
    case refine_1 =>
      simp only [List.append_nil, List.map_map]
      rw [show ((fun x => x.gpu) ∘ fun x => ({ gpu := x, merged := false } : MarkedGPU)) =
        id from rfl, List.map_id]
    · intro j m hj
      rw [List.get?_eq_getElem?, List.getElem?_map] at hj
      constructor
      · intro hcont
        simp at hcont
      · intro hm
        exfalso
        cases hg : gpus[j]? with
        | none => rw [hg] at hj; simp at hj
        | some g =>
          rw [hg] at hj
          simp at hj
          rw [← hj] at hm
          simp at hm
    · intro j h1 h2
      simp at h1 h2
      omega
  have hfold := mergeFold_inv rows hinit
  unfold getGPUsSmiPass specMerge
  exact hfold.1
theorem applyDisplayAttached_invFields (r : SmiRow) (g : GPU) :
    invFields (applyDisplayAttached r g) = invFields g := by
  unfold applyDisplayAttached
  split <;> rfl

theorem applyDisplayActive_invFields (r : SmiRow) (g : GPU) :
    invFields (applyDisplayActive r g) = invFields g := by
  unfold applyDisplayActive
  split <;> rfl

theorem applyFanSpeed_invFields (r : SmiRow) (g : GPU) :
    invFields (applyFanSpeed r g) = invFields g := by
  unfold applyFanSpeed
  split <;> rfl

theorem applyMemoryTotal_invFields (r : SmiRow) (g : GPU) :
    invFields (applyMemoryTotal r g) = invFields g := by
  unfold applyMemoryTotal
  split <;> rfl

theorem applyUtilizationGPU_invFields (r : SmiRow) (g : GPU) :
    invFields (applyUtilizationGPU r g) = invFields g := by
  unfold applyUtilizationGPU
  split <;> rfl

theorem applyUtilizationMemory_invFields (r : SmiRow) (g : GPU) :
    invFields (applyUtilizationMemory r g) = invFields g := by
  unfold applyUtilizationMemory
  split <;> rfl

theorem applyTemperatureGPU_invFields (r : SmiRow) (g : GPU) :
    invFields (applyTemperatureGPU r g) = invFields g := by
  unfold applyTemperatureGPU
  split <;> rfl

theorem applyTemperatureMemory_invFields (r : SmiRow) (g : GPU) :
    invFields (applyTemperatureMemory r g) = invFields g := by
  unfold applyTemperatureMemory
  split <;> rfl

theorem applyPowerDraw_invFields (r : SmiRow) (g : GPU) :
    invFields (applyPowerDraw r g) = invFields g := by
  unfold applyPowerDraw
  split <;> rfl

/-- Applying a vendor-diagnostic row never changes the six inventory-only
fields: the merged record keeps the inventory side of the field union. -/
theorem rowApply_invFields (g : GPU) (r : SmiRow) :
    invFields (rowApply g r) = invFields g := by
  unfold rowApply
  rw [applyPowerDraw_invFields, applyTemperatureMemory_invFields,
    applyTemperatureGPU_invFields, applyUtilizationMemory_invFields,
    applyUtilizationGPU_invFields, applyMemoryTotal_invFields,
    applyFanSpeed_invFields, applyDisplayActive_invFields, applyDisplayAttached_invFields]

/-- C4: each vendor-diagnostic row merges into the first not-yet-merged
inventory record with exactly the same name (never into an already-merged
one, order preserved), and a row with no unmerged match appends a new record
keyed by its name — proved as equivalence with the claim-side reference
merge `specMerge`; moreover a merge keeps all inventory-only fields, so the
merged record holds the union of both sources' fields (the row-provided
half of the union is theorem `gpu_unit_conversions`). -/
theorem getGPUs_merge_spec :
    (∀ (gpus : List GPU) (rows : List SmiRow), getGPUsSmiPass gpus rows = specMerge gpus rows) ∧
    (∀ (g : GPU) (r : SmiRow), invFields (rowApply g r) = invFields g) :=
  ⟨getGPUs_merge_equiv, rowApply_invFields⟩

end LupSystem
